import Mathlib

/-!
Shallow embedding of the nekowatbot Telegram bot
(src/nekowatbot/__init__.py and src/nekowatbot/handler.py).

Modelling conventions:
- Python strings are Lean `String`s; string algorithms (lower, strip,
  split, argument extraction) are defined over the underlying character
  lists, restricted to ASCII case mapping (`Char.toLower`), which is the
  fragment the program exercises.
- The TinyDB table is a list of records paired with a fresh-id counter;
  `db.insert` appends a record with a fresh id, `db.get(cond)` returns the
  first record satisfying the condition, `db.search(cond)` filters, and
  `db.update(fields, cond)` rewrites every matching record, following the
  documented TinyDB API used by the source.
- The bot object (`Nekowat`) carries the in-memory parsed configuration,
  the last configuration written to the configuration file (`persisted`),
  and the database; each handler is a pure function from the bot state and
  the inbound message to the new state plus the list of outbound transport
  effects (replies, messages, photos, next-step registrations), in the
  order the source emits them. Keyboard markup arguments are transport
  presentation details and are not modelled.
- `random.choice` is modelled by passing an arbitrary index: the chosen
  element is `candidates[pick % length]`, so every element is reachable.
-/

namespace Nekowatbot

/-- Python `str.lower()` on a character list (ASCII fragment). -/
def pyLowerChars (l : List Char) : List Char := l.map Char.toLower

/-- Python `str.lower()`. -/
def pyLower (s : String) : String := String.mk (pyLowerChars s.data)

/-- Python `str.strip()` on a character list: drop whitespace from both ends. -/
def pyStripChars (l : List Char) : List Char :=
  ((l.dropWhile Char.isWhitespace).reverse.dropWhile Char.isWhitespace).reverse

/-- Python `str.strip()`. -/
def pyStrip (s : String) : String := String.mk (pyStripChars s.data)

/-- Python `str.split(sep)` for a one-character separator, on character
lists. `split` of the empty string is `[""]`, as in Python. -/
def pySplitChars (sep : Char) : List Char → List (List Char)
  | [] => [[]]
  | c :: cs =>
    match pySplitChars sep cs with
    | [] => [[]]
    | h :: t => if c = sep then [] :: h :: t else (c :: h) :: t

/-- Python `str.split(sep)` for a one-character separator. -/
def pySplit (s : String) (sep : Char) : List String :=
  (pySplitChars sep s.data).map String.mk

/-- `telebot.util.extract_arguments`: the text after the leading command
word (first maximal run of non-whitespace characters), with the whitespace
separating it from the command skipped. -/
def extract_arguments (text : String) : String :=
  String.mk ((text.data.dropWhile (fun c => !c.isWhitespace)).dropWhile Char.isWhitespace)

/-- Value of a digit string. -/
def digitsToNat (l : List Char) : Nat :=
  l.foldl (fun acc c => acc * 10 + (c.toNat - 48)) 0

/-- Python `int(s)`, as used to parse the user id argument: surrounding
whitespace is ignored, an optional sign precedes the digits; `none` models
the `ValueError` branch caught by the caller. -/
def pyInt (s : String) : Option Int :=
  match pyStripChars s.data with
  | [] => none
  | c :: cs =>
    if c = Char.ofNat 45 then
      if !cs.isEmpty && cs.all Char.isDigit then some (-(digitsToNat cs : Int)) else none
    else if c = Char.ofNat 43 then
      if !cs.isEmpty && cs.all Char.isDigit then some (digitsToNat cs) else none
    else
      if (c :: cs).all Char.isDigit then some (digitsToNat (c :: cs)) else none

/-- A TinyDB row of the WAT table (`__init__.py`, comment at lines 92-97),
together with the internal TinyDB document id. -/
structure Wat where
  doc_id : Nat
  name : String
  file_ids : List String
  expressions : List String
  deriving Repr, DecidableEq

/-- The TinyDB table: records in insertion order plus the next fresh id. -/
structure WatDB where
  docs : List Wat
  nextId : Nat
  deriving Repr, DecidableEq

/-- The `tg` section of the parsed configuration file (the `token` string
plays no role in any modelled behaviour and is omitted), plus the
whitelist mapping, kept as an insertion-ordered key-value list. -/
structure BotConfig where
  owner : Int
  use_whitelist : Bool
  whitelist : List (String × Int)
  deriving Repr, DecidableEq

/-- The bot state: in-memory configuration, the configuration last written
to the configuration file, and the database. -/
structure Nekowat where
  conf : BotConfig
  persisted : BotConfig
  db : WatDB
  deriving Repr, DecidableEq

/-- `Nekowat.is_owner` (__init__.py lines 129-131). -/
def is_owner (bot : Nekowat) (user_id : Int) : Bool :=
  user_id == bot.conf.owner

/-- `Nekowat.is_allowed` (__init__.py lines 133-142): whitelist disabled,
owner, or the id occurs among the whitelist values. -/
def is_allowed (bot : Nekowat) (user_id : Int) : Bool :=
  if !bot.conf.use_whitelist || user_id == bot.conf.owner then
    true
  else
    bot.conf.whitelist.any (fun p => p.2 == user_id)

/-- Number of whitelist entries stored under a given name (a Python dict
keeps at most one). -/
def countKey (wl : List (String × Int)) (name : String) : Nat :=
  (wl.filter (fun p => p.1 == name)).length

/-- Python `name in dict.keys()`. -/
def dictHasKey (wl : List (String × Int)) (name : String) : Bool :=
  wl.any (fun p => p.1 == name)

/-- `Nekowat.add_whitelist` (__init__.py lines 144-166): refuse an existing
name without mutation; otherwise insert the pair, write the whole updated
configuration to the configuration file, and report success. -/
def add_whitelist (bot : Nekowat) (name : String) (user_id : Int) : Nekowat × Bool :=
  if dictHasKey bot.conf.whitelist name then
    (bot, false)
  else
    let conf2 : BotConfig := { bot.conf with whitelist := bot.conf.whitelist ++ [(name, user_id)] }
    ({ bot with conf := conf2, persisted := conf2 }, true)

/-- `Nekowat.rm_whitelist` (__init__.py lines 168-189). -/
def rm_whitelist (bot : Nekowat) (name : String) : Nekowat × Bool :=
  if !dictHasKey bot.conf.whitelist name then
    (bot, false)
  else
    let conf2 : BotConfig := { bot.conf with whitelist := bot.conf.whitelist.filter (fun p => !(p.1 == name)) }
    ({ bot with conf := conf2, persisted := conf2 }, true)

/-- `Nekowat.create_wat` (__init__.py lines 191-202): `db.insert` of a row
with the given name and file ids and an empty expressions list. -/
def create_wat (bot : Nekowat) (name : String) (file_ids : List String) : Nekowat :=
  { bot with db := { docs := bot.db.docs ++ [⟨bot.db.nextId, name, file_ids, []⟩],
                     nextId := bot.db.nextId + 1 } }

/-- `Nekowat.get_all_wats` (__init__.py lines 204-210): `db.all()`. -/
def get_all_wats (bot : Nekowat) : List Wat :=
  bot.db.docs

/-- `Nekowat.get_wats_by_expression` (__init__.py lines 212-218):
`db.search(wat.expressions.any([expression]))`, i.e. every row whose
`expressions` list has an element equal to the given string. -/
def get_wats_by_expression (bot : Nekowat) (expression : String) : List Wat :=
  bot.db.docs.filter (fun w => w.expressions.contains expression)

/-- `Nekowat.get_wat` (__init__.py lines 229-231): `db.get(name == name)`,
the first row with the given name. -/
def get_wat (bot : Nekowat) (name : String) : Option Wat :=
  bot.db.docs.find? (fun w => w.name == name)

/-- `Nekowat.wat_exists` (__init__.py lines 220-227). -/
def wat_exists (bot : Nekowat) (name : String) : Bool :=
  (get_wat bot name).isSome

/-- `Nekowat.set_wat_expressions` (__init__.py lines 233-238):
`db.update({expressions}, name == name)` rewrites every matching row. -/
def set_wat_expressions (bot : Nekowat) (name : String) (expressions : List String) : Nekowat :=
  let docs2 := bot.db.docs.map
    (fun w => if w.name == name then { w with expressions := expressions } else w)
  { bot with db := { bot.db with docs := docs2 } }

/-- Modelled from the spec: `Nekowat.remove_wat` (__init__.py lines
240-242) forwards to TinyDB `db.remove(doc_ids=[doc_id])`, whose body is
library code not under src/. Following the specification of the store
remove operation, it deletes the record with the given id and returns
whether a record was deleted (true) or no record had that id (false). -/
def remove_wat (bot : Nekowat) (doc_id : Nat) : Nekowat × Bool :=
  ({ bot with db := { bot.db with docs := bot.db.docs.filter (fun w => !(w.doc_id == doc_id)) } },
   bot.db.docs.any (fun w => w.doc_id == doc_id))

/-- The content type of an inbound Telegram message, as inspected by the
handlers (`message.content_type`). -/
inductive ContentType where
  | text
  | photo
  | other
  deriving Repr, DecidableEq

/-- One size variant of a photo attachment (`message.photo` entries). -/
structure PhotoSize where
  file_id : String
  deriving Repr, DecidableEq

/-- The fields of an inbound message the handlers read. -/
structure Message where
  chat_id : Int
  from_user_id : Int
  message_id : Nat
  content_type : ContentType
  text : String
  photo : List PhotoSize
  deriving Repr, DecidableEq

/-- The next-step continuations the handlers register, tagged with their
captured arguments (the lambdas passed to `register_next_step_handler`). -/
inductive Continuation where
  | addImage (name : String)
  | removeWat
  | getExpressions
  | setExpressions (name : String)
  deriving Repr, DecidableEq

/-- An outbound transport effect of one handler invocation. -/
inductive Effect where
  | reply (text : String)
  | replyInt (n : Int)
  | sendMessage (chat_id : Int) (text : String)
  | sendPhoto (chat_id : Int) (file_id : String)
  | register (cont : Continuation)
  deriving Repr, DecidableEq

/-- The fixed permission-denied reply used by every owner-gated handler. -/
def permissionDenied : String := "You do not have permission to do that"

/-- `me` (handler.py lines 54-57): reply with `message.chat.id`. -/
def me (m : Message) : List Effect :=
  [.replyInt m.chat_id]

/-- `handle_add` (handler.py lines 60-92). -/
def handle_add (bot : Nekowat) (m : Message) : Nekowat × List Effect :=
  let chat_id := m.chat_id
  if !is_owner bot chat_id then
    (bot, [.reply permissionDenied])
  else
    let name := extract_arguments m.text
    if name == "" then
      (bot, [.reply "/add <name>"])
    else if wat_exists bot name then
      (bot, [.reply "There is already a WAT with that name"])
    else
      (bot, [.sendMessage chat_id "Please send the image for this WAT",
             .register (.addImage name)])

/-- `process_add_image` (handler.py lines 94-121). -/
def process_add_image (bot : Nekowat) (m : Message) (name : String) : Nekowat × List Effect :=
  let chat_id := m.chat_id
  if m.content_type == .text && m.text == "/cancel" then
    (bot, [.sendMessage chat_id "Operation cancelled"])
  else if !(m.content_type == .photo) then
    (bot, [.sendMessage chat_id "Please send the image for this WAT",
           .register (.addImage name)])
  else
    let file_ids := m.photo.map (fun p => p.file_id)
    (create_wat bot name file_ids, [.sendMessage chat_id "Added correctly!"])

/-- `handle_remove` (handler.py lines 124-153); the reply-keyboard markup
listing the stored names is presentation and is not modelled. -/
def handle_remove (bot : Nekowat) (m : Message) : Nekowat × List Effect :=
  let chat_id := m.chat_id
  if !is_owner bot chat_id then
    (bot, [.reply permissionDenied])
  else
    (bot, [.sendMessage chat_id "Choose a WAT to delete",
           .register .removeWat])

/-- `process_remove_wat` (handler.py lines 155-209). -/
def process_remove_wat (bot : Nekowat) (m : Message) : Nekowat × List Effect :=
  let chat_id := m.chat_id
  if !(m.content_type == .text) then
    (bot, [.sendMessage chat_id "You need to send a bot name",
           .register .removeWat])
  else if m.text == "/cancel" then
    (bot, [.sendMessage chat_id "Operation cancelled"])
  else
    match get_wat bot m.text with
    | none =>
      (bot, [.sendMessage chat_id "No WAT found with that name",
             .register .removeWat])
    | some wat =>
      let r := remove_wat bot wat.doc_id
      if r.2 then
        (r.1, [.sendMessage chat_id ("Removed WAT " ++ m.text)])
      else
        (r.1, [.sendMessage chat_id ("Failed to remove WAT WAT " ++ m.text)])

/-- The candidate list computed by `handle_wat` (handler.py lines
225-238): the lowercased argument selects by expression, falling back to
all WATs when the argument is empty or nothing matches. -/
def handle_wat_candidates (bot : Nekowat) (text : String) : List Wat :=
  let expression := pyLower (extract_arguments text)
  if expression == "" then
    get_all_wats bot
  else
    let wats := get_wats_by_expression bot expression
    if wats.isEmpty then get_all_wats bot else wats

/-- `handle_wat` (handler.py lines 212-255). `random.choice(wats)` is
modelled by the index `pick % wats.length`; `file_ids[-1]` is the last
element of the list. -/
def handle_wat (bot : Nekowat) (m : Message) (pick : Nat) : List Effect :=
  if !is_allowed bot m.from_user_id then
    []
  else
    let wats := handle_wat_candidates bot m.text
    if wats.isEmpty then
      [.reply "Sorry, I have no WATs that match that"]
    else
      let wat := wats.getD (pick % wats.length) ⟨0, "", [], []⟩
      [.sendPhoto m.chat_id (wat.file_ids.getLastD "")]

/-- `handle_set_expressions` (handler.py lines 258-288); the reply
keyboard markup is presentation and is not modelled. -/
def handle_set_expressions (bot : Nekowat) (m : Message) : Nekowat × List Effect :=
  let chat_id := m.chat_id
  if !is_owner bot chat_id then
    (bot, [.reply permissionDenied])
  else
    (bot, [.sendMessage chat_id "Choose a WAT to modify",
           .register .getExpressions])

/-- `process_get_expressions` (handler.py lines 290-347). -/
def process_get_expressions (bot : Nekowat) (m : Message) : Nekowat × List Effect :=
  let chat_id := m.chat_id
  if !(m.content_type == .text) then
    (bot, [.sendMessage chat_id "You need to send a WAT name",
           .register .getExpressions])
  else if m.text == "/cancel" then
    (bot, [.sendMessage chat_id "Operation cancelled"])
  else
    match get_wat bot m.text with
    | none =>
      (bot, [.sendMessage chat_id "No WAT found with that name",
             .register .getExpressions])
    | some wat =>
      let expressions := String.intercalate "," wat.expressions
      (bot, [.sendMessage chat_id ("Expressions of " ++ m.text),
             .reply (if expressions == "" then "[No expressions defined]" else expressions),
             .sendMessage chat_id "Send a comma separated list of expressions",
             .register (.setExpressions m.text)])

/-- The normalization applied to each comma-separated token of the reply
in `process_set_expressions` (handler.py line 375): `e.lower().strip()`. -/
def normalizeExpression (e : String) : String :=
  pyStrip (pyLower e)

/-- `process_set_expressions` (handler.py lines 349-378). -/
def process_set_expressions (bot : Nekowat) (m : Message) (name : String) : Nekowat × List Effect :=
  let chat_id := m.chat_id
  if !(m.content_type == .text) then
    (bot, [.sendMessage chat_id "You need to send a comma separated list of expressions",
           .register (.setExpressions name)])
  else if m.text == "/cancel" then
    (bot, [.sendMessage chat_id "Operation cancelled"])
  else
    let expressions := (pySplit m.text (Char.ofNat 44)).map normalizeExpression
    (set_wat_expressions bot name expressions,
     [.sendMessage chat_id "Expressions updated"])

/-- `handle_add_whitelist` (handler.py lines 381-411). -/
def handle_add_whitelist (bot : Nekowat) (m : Message) : Nekowat × List Effect :=
  if !is_owner bot m.chat_id then
    (bot, [.reply permissionDenied])
  else
    let args := pySplit (extract_arguments m.text) (Char.ofNat 32)
    if !(args.length == 2) then
      (bot, [.reply "/addwhitelist <name> <id>"])
    else
      match pyInt (args.getD 1 "") with
      | none => (bot, [.reply "/addwhitelist <name> <id>"])
      | some user_id =>
        let r := add_whitelist bot (args.getD 0 "") user_id
        if r.2 then
          (r.1, [.reply "User added to whitelist!"])
        else
          (r.1, [.reply "Failed to add user to whitelist"])

/-- `handle_rm_whitelist` (handler.py lines 414-432). -/
def handle_rm_whitelist (bot : Nekowat) (m : Message) : Nekowat × List Effect :=
  if !is_owner bot m.chat_id then
    (bot, [.reply permissionDenied])
  else
    let name := extract_arguments m.text
    let r := rm_whitelist bot name
    if r.2 then
      (r.1, [.reply "User removed from whitelist!"])
    else
      (r.1, [.reply "Failed to remove user from whitelist"])

/-- `handle_show_whitelist` (handler.py lines 435-446). -/
def handle_show_whitelist (bot : Nekowat) (m : Message) : Nekowat × List Effect :=
  if !is_owner bot m.chat_id then
    (bot, [.reply permissionDenied])
  else
    let msg := bot.conf.whitelist.foldl
      (fun acc p => acc ++ "- " ++ p.1 ++ " (" ++ toString p.2 ++ ")\n")
      "Whitelisted users:\n\n"
    (bot, [.reply msg])

/-- Modelled from the spec: the per-chat continuation registry. The source
delegates continuation tracking to the transport library
(`register_next_step_handler`, aliased at __init__.py line 114), whose
implementation is not under src/. Following the specification, the
registry maps each chat id to at most one pending continuation, and
registering one for a chat replaces whatever that chat had. -/
structure ContinuationRegistry where
  pending : List (Int × Continuation)
  deriving Repr, DecidableEq

/-- Modelled from the spec: registering a continuation for a chat drops
any continuation that chat had and records the new one. -/
def registerContinuation (reg : ContinuationRegistry) (chat_id : Int) (c : Continuation) : ContinuationRegistry :=
  { pending := reg.pending.filter (fun p => !(p.1 == chat_id)) ++ [(chat_id, c)] }

/-- The continuations a registry holds for a chat. -/
def pendingFor (reg : ContinuationRegistry) (chat_id : Int) : List Continuation :=
  (reg.pending.filter (fun p => p.1 == chat_id)).map (fun p => p.2)

/-! Helper lemmas about the Python string fragment. -/

/-- `Char.ofNat` evaluates to the given codepoint on valid input. -/
theorem toNat_ofNat_of_valid (n : Nat) (hv : n.isValidChar) : (Char.ofNat n).toNat = n := by
  rw [Char.ofNat, dif_pos hv]
  simp [Char.ofNatAux, Char.toNat, UInt32.toNat]

/-- ASCII lowercasing is idempotent on characters. -/
theorem toLower_toLower (c : Char) : c.toLower.toLower = c.toLower := by
  simp only [Char.toLower]
  by_cases h : 65 ≤ c.toNat ∧ c.toNat ≤ 90
  · rw [if_pos h]
    have hv : (c.toNat + 32).isValidChar := by left; omega
    rw [toNat_ofNat_of_valid _ hv]
    rw [if_neg]
    omega
  · rw [if_neg h, if_neg h]

/-- A character list all of whose members are fixed by `Char.toLower` is
fixed by `pyLowerChars`. -/
theorem pyLowerChars_eq_self (l : List Char) (h : ∀ c ∈ l, c.toLower = c) :
    pyLowerChars l = l := by
  unfold pyLowerChars
  rw [List.map_congr_left h]
  exact List.map_id' l

/-- Lowercasing a character list is idempotent. -/
theorem pyLowerChars_idem (l : List Char) :
    pyLowerChars (pyLowerChars l) = pyLowerChars l := by
  refine pyLowerChars_eq_self _ ?_
  intro c hc
  unfold pyLowerChars at hc
  obtain ⟨a, _, rfl⟩ := List.mem_map.mp hc
  exact toLower_toLower a

/-- Members of the stripped list are members of the original list. -/
theorem mem_of_mem_pyStripChars (l : List Char) (c : Char) (h : c ∈ pyStripChars l) :
    c ∈ l := by
  unfold pyStripChars at h
  rw [List.mem_reverse] at h
  have h2 := (List.dropWhile_sublist Char.isWhitespace).mem h
  rw [List.mem_reverse] at h2
  exact (List.dropWhile_sublist Char.isWhitespace).mem h2

/-- `dropWhile` is idempotent. -/
theorem dropWhile_dropWhile (p : Char → Bool) (l : List Char) :
    (l.dropWhile p).dropWhile p = l.dropWhile p := by
  cases h : l.dropWhile p with
  | nil => rfl
  | cons c t =>
    have hc := List.head_dropWhile_not p l (by simp [h])
    simp only [h, List.head_cons] at hc
    simp [List.dropWhile, hc]

/-- `dropWhile` keeps the last element when its result is non-empty. -/
theorem getLast?_dropWhile (p : Char → Bool) (l : List Char) (h : l.dropWhile p ≠ []) :
    (l.dropWhile p).getLast? = l.getLast? := by
  induction l with
  | nil => simp at h
  | cons c t ih =>
    by_cases hc : p c
    · rw [List.dropWhile_cons_of_pos hc] at h ⊢
      rw [ih h]
      have ht : t ≠ [] := by
        intro he
        rw [he] at h
        simp at h
      cases t with
      | nil => exact absurd rfl ht
      | cons a b => simp [List.getLast?]
    · rw [List.dropWhile_cons_of_neg (by simp [hc])]

/-- Stripping a character list is idempotent. -/
theorem pyStripChars_idem (l : List Char) :
    pyStripChars (pyStripChars l) = pyStripChars l := by
  unfold pyStripChars
  set ws := Char.isWhitespace with hws
  set a := l.dropWhile ws with ha
  set b := a.reverse.dropWhile ws with hb
  cases hbe : b with
  | nil => simp [hbe]
  | cons x xs =>
    have hbne : b ≠ [] := by rw [hbe]; simp
    have hane : a.reverse ≠ [] := by
      intro he
      rw [hb, he] at hbne
      simp at hbne
    have hane : a ≠ [] := by
      intro he
      rw [he] at hane
      simp at hane
    obtain ⟨c, t, hct⟩ := List.exists_cons_of_ne_nil hane
    have hacl : List.dropWhile ws l = c :: t := by
      rw [← ha]
      exact hct
    have hhead : ws c = false := by
      have h5 := List.head_dropWhile_not ws l (by simp [hacl])
      simp only [hacl, List.head_cons] at h5
      simpa using h5
    have hlast : b.getLast? = some c := by
      rw [hb, getLast?_dropWhile ws a.reverse (by rw [← hb]; exact hbne)]
      rw [List.getLast?_reverse, hct]
      rfl
    have hrevhead : b.reverse.head? = some c := by
      rw [List.head?_reverse]
      exact hlast
    have hdrop1 : b.reverse.dropWhile ws = b.reverse := by
      cases hr : b.reverse with
      | nil => rfl
      | cons y ys =>
        have : y = c := by
          rw [hr] at hrevhead
          simpa using hrevhead
        rw [this]
        exact List.dropWhile_cons_of_neg (by simp [hhead])
    rw [← hbe, hdrop1, List.reverse_reverse]
    have hdrop2 : b.dropWhile ws = b := by
      rw [hb]
      exact dropWhile_dropWhile ws a.reverse
    rw [hdrop2]

/-- Stripping a string is idempotent. -/
theorem pyStrip_pyStrip (s : String) : pyStrip (pyStrip s) = pyStrip s := by
  unfold pyStrip
  rw [pyStripChars_idem]

/-- Lowercasing fixes the strip of an already lowercased string. -/
theorem pyLower_pyStrip_pyLower (s : String) :
    pyLower (pyStrip (pyLower s)) = pyStrip (pyLower s) := by
  unfold pyLower pyStrip
  congr 1
  refine pyLowerChars_eq_self _ ?_
  intro c hc
  have hmem : c ∈ pyLowerChars s.data := mem_of_mem_pyStripChars _ _ hc
  unfold pyLowerChars at hmem
  obtain ⟨a, _, rfl⟩ := List.mem_map.mp hmem
  exact toLower_toLower a

/-- Each normalized expression token is fixed by lowercasing and by
stripping: it already is in the normal form that search queries are
reduced to. -/
theorem normalizeExpression_normalized (e : String) :
    pyLower (normalizeExpression e) = normalizeExpression e ∧
    pyStrip (normalizeExpression e) = normalizeExpression e := by
  unfold normalizeExpression
  exact ⟨pyLower_pyStrip_pyLower e, pyStrip_pyStrip (pyLower e)⟩

/-- The whitelist key check is the same as a non-zero entry count. -/
theorem dictHasKey_iff_countKey (wl : List (String × Int)) (name : String) :
    dictHasKey wl name = true ↔ countKey wl name ≠ 0 := by
  simp only [dictHasKey, countKey, List.any_eq_true, Ne, List.length_eq_zero,
    List.filter_eq_nil_iff]
  push_neg
  constructor
  · rintro ⟨p, hp, hb⟩
    exact ⟨p, hp, by simpa using hb⟩
  · rintro ⟨p, hp, hb⟩
    exact ⟨p, hp, by simpa using hb⟩

/-! Concrete fixtures used by the witnesses. -/

/-- The WAT record of the end-to-end scenario in the spec. -/
def happyWat : Wat := ⟨1, "happy", ["small", "big"], ["lol"]⟩

/-- A bot whose store holds exactly `happyWat`; the whitelist is disabled
and the owner id is 10. -/
def happyBot : Nekowat :=
  { conf := ⟨10, false, []⟩, persisted := ⟨10, false, []⟩, db := ⟨[happyWat], 2⟩ }

/-- A bot with an empty store. -/
def noWatBot : Nekowat :=
  { conf := ⟨10, false, []⟩, persisted := ⟨10, false, []⟩, db := ⟨[], 1⟩ }

/-- A bot with one whitelist entry. -/
def wlBot : Nekowat :=
  { conf := ⟨10, true, [("alice", 1)]⟩, persisted := ⟨10, true, [("alice", 1)]⟩, db := ⟨[], 1⟩ }

/-- The message `/wat lol` from user 7 in chat 5. -/
def watLolMsg : Message :=
  { chat_id := 5, from_user_id := 7, message_id := 1,
    content_type := .text, text := "/wat lol", photo := [] }

/-- The message `/wat xyz` from user 7 in chat 5. -/
def watXyzMsg : Message :=
  { chat_id := 5, from_user_id := 7, message_id := 2,
    content_type := .text, text := "/wat xyz", photo := [] }

/-- The literal cancel keyword sent as text in chat 5. -/
def cancelMsg : Message :=
  { chat_id := 5, from_user_id := 7, message_id := 3,
    content_type := .text, text := "/cancel", photo := [] }

/-- A comma separated expressions reply needing normalization. -/
def exprMsg : Message :=
  { chat_id := 5, from_user_id := 7, message_id := 4,
    content_type := .text, text := " Foo ,BAR,  baZ  ", photo := [] }

/-- A message whose chat id differs from the sending user id, as in a
group chat. -/
def groupMsg : Message :=
  { chat_id := 100, from_user_id := 200, message_id := 5,
    content_type := .text, text := "/me", photo := [] }

/-! The claims. -/

/-- Claim C1: for every id, `remove_wat` reports true exactly when a
record with that id was deleted; when no record has the id it reports
false and the store (hence its size) is unchanged, with no error. -/
theorem remove_wat_deletion_flag (bot : Nekowat) (doc_id : Nat) :
    ((remove_wat bot doc_id).2 = true ↔ ∃ w ∈ bot.db.docs, w.doc_id = doc_id) ∧
    ((∀ w ∈ bot.db.docs, w.doc_id ≠ doc_id) →
      (remove_wat bot doc_id).1 = bot ∧ (remove_wat bot doc_id).2 = false) := by
  constructor
  · simp [remove_wat, List.any_eq_true]
  · intro h
    have hf : bot.db.docs.filter (fun w => !(w.doc_id == doc_id)) = bot.db.docs := by
      rw [List.filter_eq_self]
      intro w hw
      simp [h w hw]
    constructor
    · show ({ bot with db := { bot.db with
        docs := bot.db.docs.filter (fun w => !(w.doc_id == doc_id)) } } : Nekowat) = bot
      rw [hf]
    · show bot.db.docs.any (fun w => w.doc_id == doc_id) = false
      rw [List.any_eq_false]
      intro w hw
      simp [h w hw]

/-- Witness for claim C1: removing id 7 from the empty store reports
false and changes nothing. -/
theorem remove_wat_deletion_flag_witness :
    (remove_wat noWatBot 7).1 = noWatBot ∧ (remove_wat noWatBot 7).2 = false :=
  (remove_wat_deletion_flag noWatBot 7).2 (by decide)

/-- Claim C2, counterexample: for a message whose chat id (100) differs
from the sending user id (200), the `/me` handler replies with the chat
id, not the numeric identity of the caller. -/
theorem me_counterexample :
    me groupMsg = [.replyInt 100] ∧
    groupMsg.from_user_id = 200 ∧
    me groupMsg ≠ [.replyInt groupMsg.from_user_id] := by decide

/-- Claim C2 as amended: for every inbound `/me` message, the reply sent
equals the numeric id of the chat the message arrived in; this equals the
identity of the caller only when the chat id and the sender id coincide,
as in a private chat. -/
theorem me_replies_chat_id (m : Message) : me m = [.replyInt m.chat_id] := rfl

/-- Claim C3: each owner-restricted handler, on a message failing the
`is_owner` check, replies with the fixed permission-denied message,
leaves the bot state (store, configuration and whitelist) unchanged, and
emits nothing else: no prompt, no next-step registration, no photo. -/
theorem owner_gate_denies (bot : Nekowat) (m : Message)
    (h : is_owner bot m.chat_id = false) :
    handle_add bot m = (bot, [.reply permissionDenied]) ∧
    handle_remove bot m = (bot, [.reply permissionDenied]) ∧
    handle_set_expressions bot m = (bot, [.reply permissionDenied]) ∧
    handle_add_whitelist bot m = (bot, [.reply permissionDenied]) ∧
    handle_rm_whitelist bot m = (bot, [.reply permissionDenied]) ∧
    handle_show_whitelist bot m = (bot, [.reply permissionDenied]) := by
  refine ⟨?_, ?_, ?_, ?_, ?_, ?_⟩ <;>
    simp [handle_add, handle_remove, handle_set_expressions,
      handle_add_whitelist, handle_rm_whitelist, handle_show_whitelist, h]

/-- Witness for claim C3: chat 5 is not the owner (10) of `happyBot`, and
each owner-gated handler answers it with the denial reply only. -/
theorem owner_gate_denies_witness :
    is_owner happyBot watLolMsg.chat_id = false ∧
    handle_add happyBot watLolMsg = (happyBot, [.reply permissionDenied]) ∧
    handle_add_whitelist happyBot watLolMsg = (happyBot, [.reply permissionDenied]) :=
  ⟨by decide,
   (owner_gate_denies happyBot watLolMsg (by decide)).1,
   (owner_gate_denies happyBot watLolMsg (by decide)).2.2.2.1⟩

/-- Claim C4: `add_whitelist` of an existing name returns false and
mutates neither the in-memory whitelist nor the persisted configuration;
of a fresh name it appends the entry, persists the whole configuration
and returns true; called twice with the same name it leaves exactly one
entry for that name and the second call returns false. -/
theorem add_whitelist_spec (bot : Nekowat) (name : String) (uid uid2 : Int) :
    (dictHasKey bot.conf.whitelist name = true →
      add_whitelist bot name uid = (bot, false)) ∧
    (dictHasKey bot.conf.whitelist name = false →
      (add_whitelist bot name uid).2 = true ∧
      (add_whitelist bot name uid).1.conf.whitelist = bot.conf.whitelist ++ [(name, uid)] ∧
      (add_whitelist bot name uid).1.persisted = (add_whitelist bot name uid).1.conf) ∧
    (countKey bot.conf.whitelist name ≤ 1 →
      (add_whitelist (add_whitelist bot name uid).1 name uid2).2 = false ∧
      countKey (add_whitelist (add_whitelist bot name uid).1 name uid2).1.conf.whitelist name = 1) := by
  refine ⟨?_, ?_, ?_⟩
  · intro hk
    simp [add_whitelist, hk]
  · intro hk
    simp [add_whitelist, hk]
  · intro hcnt
    by_cases hk : dictHasKey bot.conf.whitelist name
    · have h1 : add_whitelist bot name uid = (bot, false) := by simp [add_whitelist, hk]
      have h2 : add_whitelist bot name uid2 = (bot, false) := by simp [add_whitelist, hk]
      rw [h1, h2]
      have hne := (dictHasKey_iff_countKey bot.conf.whitelist name).mp hk
      refine ⟨rfl, ?_⟩
      show countKey bot.conf.whitelist name = 1
      omega
    · rw [Bool.not_eq_true] at hk
      have hz : countKey bot.conf.whitelist name = 0 := by
        by_contra hnz
        have hcontra := (dictHasKey_iff_countKey bot.conf.whitelist name).mpr hnz
        rw [hk] at hcontra
        exact Bool.false_ne_true hcontra
      have h1 : (add_whitelist bot name uid).1.conf.whitelist
          = bot.conf.whitelist ++ [(name, uid)] := by
        simp [add_whitelist, hk]
      set bot2 := (add_whitelist bot name uid).1 with hbot2
      have hk2 : dictHasKey bot2.conf.whitelist name = true := by
        rw [h1]
        simp [dictHasKey, List.any_append]
      have hcall : add_whitelist bot2 name uid2 = (bot2, false) := by
        simp [add_whitelist, hk2]
      rw [hcall]
      refine ⟨rfl, ?_⟩
      show countKey bot2.conf.whitelist name = 1
      rw [h1]
      have hstep : countKey (bot.conf.whitelist ++ [(name, uid)]) name
          = countKey bot.conf.whitelist name + 1 := by
        simp [countKey, List.filter_append]
      rw [hstep, hz]

/-- Witness for claim C4: on a whitelist holding only `alice`, adding
`alice` again is refused without mutation, while adding `bob` twice
inserts once, returns false the second time and leaves one `bob` entry. -/
theorem add_whitelist_spec_witness :
    add_whitelist wlBot "alice" 5 = (wlBot, false) ∧
    (add_whitelist wlBot "bob" 7).2 = true ∧
    (add_whitelist (add_whitelist wlBot "bob" 7).1 "bob" 8).2 = false ∧
    countKey (add_whitelist (add_whitelist wlBot "bob" 7).1 "bob" 8).1.conf.whitelist "bob" = 1 :=
  ⟨(add_whitelist_spec wlBot "alice" 5 5).1 (by decide),
   ((add_whitelist_spec wlBot "bob" 7 8).2.1 (by decide)).1,
   ((add_whitelist_spec wlBot "bob" 7 8).2.2 (by decide)).1,
   ((add_whitelist_spec wlBot "bob" 7 8).2.2 (by decide)).2⟩

/-- Claim C5: creating a WAT under a name the store does not hold and
then fetching it by name returns a record with exactly the given file ids
in order and an empty expressions list. -/
theorem create_wat_then_get_wat (bot : Nekowat) (name : String) (file_ids : List String)
    (_hne : file_ids ≠ []) (hex : wat_exists bot name = false) :
    get_wat (create_wat bot name file_ids) name =
      some ⟨bot.db.nextId, name, file_ids, []⟩ := by
  have h0 : bot.db.docs.find? (fun w => w.name == name) = none := by
    unfold wat_exists get_wat at hex
    simpa using hex
  unfold get_wat create_wat
  rw [List.find?_append, h0]
  simp [List.find?]

/-- Witness for claim C5: creating `happy` in the empty store and reading
it back. -/
theorem create_wat_then_get_wat_witness :
    get_wat (create_wat noWatBot "happy" ["small", "big"]) "happy" =
      some ⟨1, "happy", ["small", "big"], []⟩ :=
  create_wat_then_get_wat noWatBot "happy" ["small", "big"] (by decide) (by decide)

/-- Claim C6: the expression search returns exactly the stored records
whose expressions list contains the query as an element under string
equality, and the empty list, not an error, when none matches. -/
theorem get_wats_by_expression_exact (bot : Nekowat) (e : String) :
    (∀ w, w ∈ get_wats_by_expression bot e ↔ w ∈ bot.db.docs ∧ e ∈ w.expressions) ∧
    ((∀ w ∈ bot.db.docs, e ∉ w.expressions) → get_wats_by_expression bot e = []) := by
  constructor
  · intro w
    simp [get_wats_by_expression, List.mem_filter]
  · intro h
    rw [get_wats_by_expression, List.filter_eq_nil_iff]
    intro w hw
    simpa using h w hw

/-- Witness for claim C6: no stored record matches `xyz`, so the search
returns the empty list. -/
theorem get_wats_by_expression_exact_witness :
    get_wats_by_expression happyBot "xyz" = [] :=
  (get_wats_by_expression_exact happyBot "xyz").2 (by decide)

/-- Claim C7: with only the `happy` WAT stored, `/wat lol` replies with
the photo handle `big` (the last, largest file id) whatever the random
pick; `/wat xyz`, matching nothing while the store is non-empty, draws
its candidates from all stored WATs; on an empty store the handler
replies with the no-WATs-available message and sends no photo. -/
theorem handle_wat_end_to_end :
    (∀ pick, handle_wat happyBot watLolMsg pick = [.sendPhoto 5 "big"]) ∧
    (∀ (bot : Nekowat) (m : Message), m.text = "/wat xyz" → bot.db.docs ≠ [] →
      (∀ w ∈ bot.db.docs, "xyz" ∉ w.expressions) →
      handle_wat_candidates bot m.text = get_all_wats bot) ∧
    (∀ (bot : Nekowat) (m : Message) (pick : Nat), bot.db.docs = [] →
      is_allowed bot m.from_user_id = true →
      handle_wat bot m pick = [.reply "Sorry, I have no WATs that match that"]) := by
  refine ⟨?_, ?_, ?_⟩
  · intro pick
    have ha : is_allowed happyBot watLolMsg.from_user_id = true := by decide
    have hc : handle_wat_candidates happyBot watLolMsg.text = [happyWat] := by decide
    simp [handle_wat, ha, hc, Nat.mod_one]
    decide
  · intro bot m hm _ hmatch
    rw [hm]
    unfold handle_wat_candidates
    have he : pyLower (extract_arguments "/wat xyz") = "xyz" := by decide
    rw [he]
    have hs : get_wats_by_expression bot "xyz" = [] := by
      rw [get_wats_by_expression, List.filter_eq_nil_iff]
      intro w hw
      simpa using hmatch w hw
    simp [hs]
  · intro bot m pick hempty ha
    have hc : handle_wat_candidates bot m.text = [] := by
      unfold handle_wat_candidates
      simp [get_all_wats, get_wats_by_expression, hempty]
    simp [handle_wat, ha, hc]

/-- Witness for claim C7: the three scenarios at their concrete inputs. -/
theorem handle_wat_end_to_end_witness :
    handle_wat happyBot watLolMsg 0 = [.sendPhoto 5 "big"] ∧
    handle_wat_candidates happyBot watXyzMsg.text = get_all_wats happyBot ∧
    handle_wat noWatBot watXyzMsg 0 = [.reply "Sorry, I have no WATs that match that"] :=
  ⟨handle_wat_end_to_end.1 0,
   handle_wat_end_to_end.2.1 happyBot watXyzMsg rfl (by decide) (by decide),
   handle_wat_end_to_end.2.2 noWatBot watXyzMsg 0 rfl (by decide)⟩

/-- Claim C8: when the inbound message of any continuation step is the
literal text `/cancel`, each resume function only acknowledges the
cancellation: the bot state is unchanged (nothing created, removed or
updated) and no further continuation is registered. -/
theorem cancel_keyword_aborts (bot : Nekowat) (m : Message) (name : String)
    (h1 : m.content_type = .text) (h2 : m.text = "/cancel") :
    process_add_image bot m name = (bot, [.sendMessage m.chat_id "Operation cancelled"]) ∧
    process_remove_wat bot m = (bot, [.sendMessage m.chat_id "Operation cancelled"]) ∧
    process_get_expressions bot m = (bot, [.sendMessage m.chat_id "Operation cancelled"]) ∧
    process_set_expressions bot m name = (bot, [.sendMessage m.chat_id "Operation cancelled"]) := by
  refine ⟨?_, ?_, ?_, ?_⟩ <;>
    simp [process_add_image, process_remove_wat, process_get_expressions,
      process_set_expressions, h1, h2]

/-- Witness for claim C8: the concrete `/cancel` text message aborts each
of the four resume functions on `happyBot`. -/
theorem cancel_keyword_aborts_witness :
    process_add_image happyBot cancelMsg "name" = (happyBot, [.sendMessage 5 "Operation cancelled"]) ∧
    process_remove_wat happyBot cancelMsg = (happyBot, [.sendMessage 5 "Operation cancelled"]) ∧
    process_get_expressions happyBot cancelMsg = (happyBot, [.sendMessage 5 "Operation cancelled"]) ∧
    process_set_expressions happyBot cancelMsg "name" = (happyBot, [.sendMessage 5 "Operation cancelled"]) :=
  cancel_keyword_aborts happyBot cancelMsg "name" rfl rfl

/-- Claim C9: registering a continuation for a chat replaces whatever
continuation that chat had, leaves other chats untouched, and preserves
the invariant that every chat has at most one pending continuation, so
the next message of the chat is delivered to exactly one resume
function. -/
theorem continuation_register_replaces (reg : ContinuationRegistry)
    (chat_id : Int) (c : Continuation) :
    pendingFor (registerContinuation reg chat_id c) chat_id = [c] ∧
    (∀ cid2, cid2 ≠ chat_id →
      pendingFor (registerContinuation reg chat_id c) cid2 = pendingFor reg cid2) ∧
    ((∀ x, (pendingFor reg x).length ≤ 1) →
      ∀ x, (pendingFor (registerContinuation reg chat_id c) x).length ≤ 1) := by
  have hself : pendingFor (registerContinuation reg chat_id c) chat_id = [c] := by
    unfold pendingFor registerContinuation
    rw [List.filter_append, List.filter_filter]
    have hnil : reg.pending.filter (fun a => a.1 == chat_id && !(a.1 == chat_id)) = [] := by
      rw [List.filter_eq_nil_iff]
      intro p _
      simp
    rw [hnil]
    simp
  have hother : ∀ cid2, cid2 ≠ chat_id →
      pendingFor (registerContinuation reg chat_id c) cid2 = pendingFor reg cid2 := by
    intro cid2 hne
    unfold pendingFor registerContinuation
    rw [List.filter_append]
    have h2 : List.filter (fun p => p.1 == cid2) [(chat_id, c)] = [] := by
      simp [hne.symm]
    rw [h2, List.append_nil, List.filter_filter]
    congr 1
    apply List.filter_congr
    intro p _
    by_cases hp : p.1 = cid2 <;> simp [hp, hne]
  refine ⟨hself, hother, ?_⟩
  intro hinv x
  by_cases hx : x = chat_id
  · rw [hx, hself]
    simp
  · rw [hother x hx]
    exact hinv x

/-- A registry in which chat 5 awaits the remove step and chat 6 the
expressions step. -/
def demoReg : ContinuationRegistry := ⟨[(5, .removeWat), (6, .getExpressions)]⟩

/-- `demoReg` holds at most one continuation per chat. -/
theorem demoReg_at_most_one (x : Int) : (pendingFor demoReg x).length ≤ 1 := by
  unfold pendingFor demoReg
  by_cases h5 : (5 : Int) = x <;> by_cases h6 : (6 : Int) = x <;>
    simp [List.filter_cons, h5, h6] <;> omega

/-- Witness for claim C9: on `demoReg`, registering the add-image step
for chat 5 leaves exactly that one continuation for chat 5, keeps chat 6
untouched, and keeps every chat at no more than one continuation. -/
theorem continuation_register_replaces_witness :
    pendingFor (registerContinuation demoReg 5 (.addImage "happy")) 5 = [.addImage "happy"] ∧
    pendingFor (registerContinuation demoReg 5 (.addImage "happy")) 6 = pendingFor demoReg 6 ∧
    (pendingFor (registerContinuation demoReg 5 (.addImage "happy")) 6).length ≤ 1 :=
  ⟨(continuation_register_replaces demoReg 5 (.addImage "happy")).1,
   (continuation_register_replaces demoReg 5 (.addImage "happy")).2.1 6 (by decide),
   (continuation_register_replaces demoReg 5 (.addImage "happy")).2.2 demoReg_at_most_one 6⟩

/-- Claim C10: a non-cancel text reply to the set-expressions step stores
exactly the comma separated tokens of the reply, each lowercased and
stripped of surrounding whitespace; every stored token is therefore a
fixed point of the lowercasing (and stripping) that `/wat` and inline
queries apply to their search input. -/
theorem set_expressions_normalizes (bot : Nekowat) (m : Message) (name : String)
    (h1 : m.content_type = .text) (h2 : m.text ≠ "/cancel") :
    process_set_expressions bot m name =
      (set_wat_expressions bot name ((pySplit m.text (Char.ofNat 44)).map normalizeExpression),
       [.sendMessage m.chat_id "Expressions updated"]) ∧
    (∀ x ∈ (pySplit m.text (Char.ofNat 44)).map normalizeExpression,
      pyLower x = x ∧ pyStrip x = x) := by
  constructor
  · simp [process_set_expressions, h1, h2]
  · intro x hx
    obtain ⟨e, _, rfl⟩ := List.mem_map.mp hx
    exact normalizeExpression_normalized e

/-- Witness for claim C10: the reply ` Foo ,BAR,  baZ  ` is stored as the
normalized tokens `foo`, `bar`, `baz`. -/
theorem set_expressions_normalizes_witness :
    process_set_expressions happyBot exprMsg "happy" =
      (set_wat_expressions happyBot "happy" ((pySplit exprMsg.text (Char.ofNat 44)).map normalizeExpression),
       [.sendMessage 5 "Expressions updated"]) ∧
    (pySplit exprMsg.text (Char.ofNat 44)).map normalizeExpression = ["foo", "bar", "baz"] :=
  ⟨(set_expressions_normalizes happyBot exprMsg "happy" rfl (by decide)).1, by decide⟩

end Nekowatbot
